import Mathlib

/-!
Verification of the streaming chat-session core of the risentia-poc trial
matching frontend.  Definitions are shallow embeddings of the TypeScript
source:

* `splitNN`, `feedChunk`, `decodeChunks` — the SSE frame decoder of
  `sendMessage` (src/hooks/use-chat-store.ts, lines 91-98) and
  `parseSSEStream` (src/lib/fastapi-client.ts, lines 186-230): the incoming
  chunk is appended to a buffer, the buffer is split on the two-newline
  separator, every complete segment is a frame and the final segment is
  retained as the new buffer.
-/

set_option maxHeartbeats 1000000

/-- Helper for `splitNN`: prepends a character to the first frame of a
split result, or to the buffer when there is no frame.  This is how the JS
`buffer.split('\n\n')` distributes a leading character that is not part of
a separator occurrence. -/
def consFrame (ch : Char) (r : List (List Char) × List Char) :
    List (List Char) × List Char :=
  match r.1 with
  | [] => ([], ch :: r.2)
  | f :: fs => ((ch :: f) :: fs, r.2)

/-- Model of the JS `buffer.split('\n\n')` followed by `lines.pop()`
(src/hooks/use-chat-store.ts lines 97-98, src/lib/fastapi-client.ts lines
194-195): the first component is the list of complete frames (every
segment before a separator occurrence, matched left to right and
non-overlapping) and the second component is the popped trailing segment,
kept as the buffer. -/
def splitNN : List Char → List (List Char) × List Char
  | [] => ([], [])
  | [ch] => ([], [ch])
  | c1 :: c2 :: rest =>
    if c1 = '\n' ∧ c2 = '\n' then
      let r := splitNN rest
      ([] :: r.1, r.2)
    else
      consFrame c1 (splitNN (c2 :: rest))

/-- One read-loop iteration of the decoder: append the incoming chunk to
the buffer, split, emit the complete frames after the already-emitted
ones, and keep the trailing segment as the new buffer
(src/hooks/use-chat-store.ts lines 96-98). -/
def feedChunk (st : List (List Char) × List Char) (c : List Char) :
    List (List Char) × List Char :=
  let r := splitNN (st.2 ++ c)
  (st.1 ++ r.1, r.2)

/-- The whole read loop: fold `feedChunk` over the arriving chunks,
starting from no frames and an empty buffer (`let buffer = ''`). -/
def decodeChunks (chunks : List (List Char)) : List (List Char) × List Char :=
  chunks.foldl feedChunk ([], [])

/-- Re-glue a split result: frames joined by the two-newline separator,
followed by the buffer. -/
def joinFrames : List (List Char) → List Char → List Char
  | [], b => b
  | f :: fs, b => f ++ '\n' :: '\n' :: joinFrames fs b

/-- Whether a character list contains the two-newline frame separator. -/
def hasSep : List Char → Bool
  | [] => false
  | [_] => false
  | c1 :: c2 :: rest => (c1 = '\n' ∧ c2 = '\n') ∨ hasSep (c2 :: rest)

/-! ## Client chat store (src/hooks/use-chat-store.ts)

The Zustand store holds the per-session state; `sendMessage` appends the
user turn, opens the stream request, applies each decoded `data:` frame to
the state, and `retryLastMessage` rolls back a failed attempt.  Effectful
inputs (`uuidv4()`, `new Date()` / `Date.now()`) are passed as explicit
arguments. -/

/-- Message roles of `ChatMessage.role` (src/types, part_007 lines 28-37). -/
inductive Role where
  | user
  | assistant
deriving DecidableEq

/-- `AppMode` (src/types, part_007 line 113). -/
inductive AppMode where
  | localMode
  | fastapi
deriving DecidableEq

/-- `PipelineStep.status` values (src/types, part_007 line 66). -/
inductive StepStatus where
  | pending
  | running
  | complete
  | error
deriving DecidableEq

/-- `sex` field values of `PatientProfile` (src/types, part_007 line 7). -/
inductive Sex where
  | male
  | female
deriving DecidableEq

/-- `PatientProfile` (src/types, part_007 lines 5-17).  Optional scalar
fields are `Option`; `biomarkers` (a `Record<string, string>`) is an
association list with the object's key insertion order; numbers are
modelled as `Nat` (age, ecog are integers in practice). -/
structure PatientProfile where
  age : Option Nat := none
  sex : Option Sex := none
  cancerType : Option String := none
  histology : Option String := none
  stage : Option String := none
  biomarkers : List (String × String) := []
  pdl1Score : Option String := none
  msiStatus : Option String := none
  priorTreatments : List String := []
  ecog : Option Nat := none
  rawText : Option String := none
deriving DecidableEq

/-- `createEmptyPatientProfile()` (src/types, part_007 lines 19-22). -/
def createEmptyPatientProfile : PatientProfile := {}

/-- A partial patient-profile delta (`Partial<PatientProfile>` /
JSON-parsed `data.patientData`): every field may be absent.  A field that
is `some` is explicitly present in the incoming object (JSON parsing never
produces a key bound to `undefined`, so presence of the key coincides with
`some`). -/
structure PatientDelta where
  age : Option Nat := none
  sex : Option Sex := none
  cancerType : Option String := none
  histology : Option String := none
  stage : Option String := none
  biomarkers : Option (List (String × String)) := none
  pdl1Score : Option String := none
  msiStatus : Option String := none
  priorTreatments : Option (List String) := none
  ecog : Option Nat := none
  rawText : Option String := none
deriving DecidableEq

/-- JS object-spread semantics for one optional field: `{...cur, ...del}`
takes the delta's value exactly when the delta object carries the key. -/
def jsOrOpt {α : Type} (del cur : Option α) : Option α :=
  match del with
  | some v => some v
  | none => cur

/-- One entry of the base map after a spread `{...cur, ...del}`: the key
keeps its position, the value is taken from `del` when it has the key. -/
def overrideEntry (del : List (String × String)) (p : String × String) :
    String × String :=
  match del.lookup p.1 with
  | some v => (p.1, v)
  | none => p

/-- JS object-spread of two string maps, `{...cur, ...del}`: the keys of
`cur` in their order (values overridden by `del` where it has the key),
followed by the keys of `del` not in `cur`, in `del`'s order. -/
def jsObjectMerge (cur del : List (String × String)) : List (String × String) :=
  cur.map (overrideEntry del) ++ del.filter (fun p => (cur.lookup p.1).isNone)

/-- JS `[...new Set(xs)]`: keep the first occurrence of every element, in
insertion order. -/
def jsSetDedup : List String → List String
  | [] => []
  | x :: xs => x :: (jsSetDedup xs).filter (fun y => y ≠ x)

/-- The profile merge performed on a `response` frame
(src/hooks/use-chat-store.ts lines 157-166): scalar fields by object
spread (delta wins where present), `biomarkers` by per-key spread with the
delta winning, `priorTreatments` by `[...new Set([...cur, ...del])]`. -/
def mergeProfile (cur : PatientProfile) (del : PatientDelta) : PatientProfile :=
  { age := jsOrOpt del.age cur.age
    sex := jsOrOpt del.sex cur.sex
    cancerType := jsOrOpt del.cancerType cur.cancerType
    histology := jsOrOpt del.histology cur.histology
    stage := jsOrOpt del.stage cur.stage
    biomarkers := jsObjectMerge cur.biomarkers (del.biomarkers.getD [])
    pdl1Score := jsOrOpt del.pdl1Score cur.pdl1Score
    msiStatus := jsOrOpt del.msiStatus cur.msiStatus
    priorTreatments := jsSetDedup (cur.priorTreatments ++ del.priorTreatments.getD [])
    ecog := jsOrOpt del.ecog cur.ecog
    rawText := jsOrOpt del.rawText cur.rawText }

/-- The session-side profile merge of `handleFastAPIMode`
(src/unnamed/part_006 lines 171-181): the same spread pattern, with
`rawText` set to the incoming message text afterwards. -/
def mergeProfileRoute (cur : PatientProfile) (del : PatientDelta)
    (message : String) : PatientProfile :=
  { mergeProfile cur del with rawText := some message }

/-- `TrialMatch` of the frontend (src/types, part_007 lines 94-104), with
the floating-point score as a rational. -/
structure TrialMatchR where
  nctId : String
  title : String
  phase : String
  status : String
  sponsor : String
  locations : List String
  matchScore : Rat
  matchReasons : List String
  concerns : List String
deriving DecidableEq

/-- `TrialProgressEvent` (src/types, part_007 lines 74-81).  The store
copies the fields straight out of the JSON frame
(src/hooks/use-chat-store.ts lines 133-142), so each may be absent. -/
structure TrialProgressEventR where
  nctId : Option String := none
  title : Option String := none
  index : Option Nat := none
  total : Option Nat := none
  status : Option String := none
  confidence : Option Rat := none
deriving DecidableEq

/-- `ChatMessage` (src/types, part_007 lines 28-37); the two optional
metadata members are flattened into two optional fields, and the
timestamp is milliseconds since epoch. -/
structure ChatMessage where
  id : String
  role : Role
  content : String
  timestamp : Nat
  metaPatientData : Option PatientDelta := none
  metaTrials : Option (List TrialMatchR) := none
deriving DecidableEq

/-- One entry of `PIPELINE_STEPS` with its runtime status
(src/types, part_007 lines 62-72; the never-written optional members
`tokens`, `duration`, `progress` are omitted). -/
structure PipelineStepR where
  name : String
  description : String
  model : String
  status : StepStatus
  cost : Option Rat := none
  detail : Option String := none
deriving DecidableEq

/-- `PIPELINE_STEPS` (src/types, part_007 lines 83-88): name,
description, model. -/
def pipelineStepDefs : List (String × String × String) :=
  [("Retrieve Trials", "BM25 + semantic search", "qwen-flash"),
   ("Pre-filter", "Age, gender, ECOG checks", "rule-based"),
   ("Assess Eligibility", "Inclusion/exclusion criteria", "qwen-plus"),
   ("Rank & Report", "Score and explain matches", "claude-sonnet")]

/-- `PIPELINE_STEPS.map(s => ({...s, status: 'pending'}))`
(src/hooks/use-chat-store.ts lines 35 and 57). -/
def initialPipelineSteps : List PipelineStepR :=
  pipelineStepDefs.map (fun d =>
    { name := d.1, description := d.2.1, model := d.2.2, status := .pending })

/-- The Zustand store state (src/hooks/use-chat-store.ts lines 10-28). -/
structure ChatState where
  sessionId : String
  messages : List ChatMessage
  isLoading : Bool
  patientProfile : PatientProfile
  pipelineSteps : List PipelineStepR
  isPipelineRunning : Bool
  trials : List TrialMatchR
  totalCost : Rat
  mode : AppMode
  trialProgress : List TrialProgressEventR
  matchingDetail : Option String
  lastUserMessage : Option String
deriving DecidableEq

/-- The store's initial state (src/hooks/use-chat-store.ts lines 31-42),
with the generated session id passed in. -/
def initialChatState (sessionId : String) : ChatState :=
  { sessionId := sessionId
    messages := []
    isLoading := false
    patientProfile := createEmptyPatientProfile
    pipelineSteps := initialPipelineSteps
    isPipelineRunning := false
    trials := []
    totalCost := 0
    mode := .fastapi
    trialProgress := []
    matchingDetail := none
    lastUserMessage := none }

/-- JS string truthiness as used in `x || y` chains: an absent value and
the empty string are falsy. -/
def strTruthy (o : Option String) : Option String :=
  match o with
  | some s => if s = "" then none else some s
  | none => none

/-- JS `a || b` on optional strings: `b` when `a` is absent or empty. -/
def jsOrStr (a b : Option String) : Option String :=
  match strTruthy a with
  | some s => some s
  | none => b

/-- JS `step.name === data.step` where `data.step` may be absent
(`undefined === s` is false). -/
def optStrEq (o : Option String) (s : String) : Bool :=
  match o with
  | some t => t = s
  | none => false

/-- One decoded `data:` frame as consumed by the `switch (data.type)` of
`sendMessage` (src/hooks/use-chat-store.ts lines 105-204); `unknown`
stands for any other `type` tag, which matches no case. -/
inductive ClientEvent where
  | step_start (step : Option String) (message : Option String)
  | step_complete (step : Option String) (cost : Option Rat)
  | step_progress (step : Option String) (detail : Option String) (message : Option String)
  | trial_progress (tp : TrialProgressEventR)
  | response (content : String) (patientData : Option PatientDelta)
      (trials : Option (List TrialMatchR)) (totalCost : Option Rat)
  | error (message : String)
  | done
  | unknown
deriving DecidableEq

/-- The user-facing error text appended for an `error` frame and for a
stream-level failure (src/hooks/use-chat-store.ts lines 185 and 225). -/
def errorTurnContent (msg : String) : String :=
  "Error: " ++ msg ++
    "\n\nYou can retry by clicking the retry button or sending your message again."

/-- Application of one decoded frame to the store state: the
`switch (data.type)` body of `sendMessage` (src/hooks/use-chat-store.ts
lines 105-204).  `uuid` and `now` stand for the `uuidv4()` and
`new Date()` calls made when a message is created. -/
def applyClientEvent (uuid : String) (now : Nat) (ev : ClientEvent)
    (st : ChatState) : ChatState :=
  match ev with
  | .step_start step message =>
    { st with
        isPipelineRunning := true
        pipelineSteps := st.pipelineSteps.map (fun s =>
          if optStrEq step s.name then
            { s with status := .running, detail := strTruthy message }
          else s) }
  | .step_complete step cost =>
    { st with
        pipelineSteps := st.pipelineSteps.map (fun s =>
          if optStrEq step s.name then
            { s with status := .complete, cost := cost, detail := none }
          else s) }
  | .step_progress step detail message =>
    { st with
        pipelineSteps := st.pipelineSteps.map (fun s =>
          if optStrEq step s.name then
            { s with detail := jsOrStr detail (jsOrStr message s.detail) }
          else s)
        matchingDetail := jsOrStr detail (jsOrStr message st.matchingDetail) }
  | .trial_progress tp =>
    { st with trialProgress := st.trialProgress ++ [tp] }
  | .response content patientData trials totalCost =>
    { st with
        messages := st.messages ++
          [{ id := uuid, role := .assistant, content := content, timestamp := now,
             metaPatientData := patientData, metaTrials := trials }]
        patientProfile :=
          match patientData with
          | some pd => mergeProfile st.patientProfile pd
          | none => st.patientProfile
        trials := trials.getD []
        totalCost := totalCost.getD 0
        isPipelineRunning := false
        lastUserMessage := none
        pipelineSteps := st.pipelineSteps.map (fun s =>
          if s.status = .pending ∨ s.status = .running then
            { s with status := .complete, detail := none }
          else s) }
  | .error message =>
    { st with
        messages := st.messages ++
          [{ id := uuid, role := .assistant, content := errorTurnContent message,
             timestamp := now }]
        isPipelineRunning := false
        pipelineSteps := st.pipelineSteps.map (fun s =>
          if s.status = .running then { s with status := .error } else s) }
  | .done => st
  | .unknown => st

/-- The `catch` block of `sendMessage` for a stream-level failure
(src/hooks/use-chat-store.ts lines 219-236): append a user-visible error
turn, clear the pipeline-running flag, and mark every `running` stage as
`error`. -/
def applyStreamFailure (uuid : String) (now : Nat) (msg : String)
    (st : ChatState) : ChatState :=
  { st with
      messages := st.messages ++
        [{ id := uuid, role := .assistant, content := errorTurnContent msg,
           timestamp := now }]
      isPipelineRunning := false
      pipelineSteps := st.pipelineSteps.map (fun s =>
        if s.status = .running then { s with status := .error } else s) }

/-- The body of the outbound `fetch('/api/chat', ...)` request
(src/hooks/use-chat-store.ts lines 65-69). -/
structure ChatRequest where
  sessionId : String
  message : String
  mode : AppMode
  patientProfile : PatientProfile
deriving DecidableEq

/-- The synchronous head of `sendMessage` (src/hooks/use-chat-store.ts
lines 44-69): unconditionally append the user turn, set the loading flag,
reset every stage to `pending`, clear turn-transient state, retain the
input for retry, and open the outbound request.  The profile sent is read
after the `set` call, which does not change it. -/
def sendMessageStart (uuid : String) (now : Nat) (content : String)
    (st : ChatState) : ChatState × ChatRequest :=
  ({ st with
      messages := st.messages ++
        [{ id := uuid, role := .user, content := content, timestamp := now }]
      isLoading := true
      pipelineSteps := initialPipelineSteps
      isPipelineRunning := false
      trialProgress := []
      matchingDetail := none
      lastUserMessage := some content },
   { sessionId := st.sessionId, message := content, mode := st.mode,
     patientProfile := st.patientProfile })

/-- JS `s.startsWith(pre)` over the characters of the strings. -/
def strStartsWith (s pre : String) : Bool :=
  pre.toList.isPrefixOf s.toList

/-- The condition of the stripping loop in `retryLastMessage`
(src/hooks/use-chat-store.ts line 249): a trailing assistant turn whose
content starts with the error marker. -/
def isErrorTurn (m : ChatMessage) : Bool :=
  m.role == Role.assistant && strStartsWith m.content "Error:"

/-- The log rollback of `retryLastMessage` (src/hooks/use-chat-store.ts
lines 246-257): pop trailing assistant error turns, then pop the trailing
user turn if one is now on top. -/
def stripRetry (msgs : List ChatMessage) : List ChatMessage :=
  let r1 := msgs.reverse.dropWhile isErrorTurn
  let r2 := match r1 with
    | m :: rest => if m.role == Role.user then rest else r1
    | [] => r1
  r2.reverse

/-- `retryLastMessage` (src/hooks/use-chat-store.ts lines 242-260) as a
state transition: when a retry input is retained, roll the log back and
re-send that input (the second component is the input passed to
`sendMessage`, `none` when nothing is sent). -/
def retryLastMessageStep (st : ChatState) : ChatState × Option String :=
  match st.lastUserMessage with
  | some m => ({ st with messages := stripRetry st.messages }, some m)
  | none => (st, none)

/-! ## Heartbeat monitor (src/hooks/use-chat-store.ts lines 79-88, 211-218)

A trace model of the single-threaded event loop interleaving of the
`setInterval` heartbeat checker with the `reader.read()` loop.  A trace is
the time-ordered sequence of occurrences the loop observes: interval
callbacks (`tick`), arriving data chunks (`chunk`, which reset
`lastEventTime`), the stream finishing normally (`streamEnd`), and the
loop body throwing (`readError`, for a `reader.read()` or processing
failure).  When the checker fires
(`Date.now() - lastEventTime > HEARTBEAT_TIMEOUT_MS`) it sets
`heartbeatDead`, cancels the reader and clears the interval; the pending
read then resolves done, the loop breaks, the `finally` clears the
interval, and the `heartbeatDead` flag turns the exit into a thrown
connection-lost error.  On `streamEnd` the loop breaks and the `finally`
clears the interval with no error thrown.  On `readError` the exception
leaves the loop, the `finally` clause clears the interval on the way out
(src/hooks/use-chat-store.ts lines 211-213), and the error propagates
with its own message to the surrounding catch. -/

/-- `HEARTBEAT_TIMEOUT_MS` (src/hooks/use-chat-store.ts line 8). -/
def heartbeatTimeoutMs : Nat := 45000

/-- The `setInterval` period (src/hooks/use-chat-store.ts line 88). -/
def heartbeatCheckMs : Nat := 5000

/-- The message of the error thrown after a heartbeat timeout
(src/hooks/use-chat-store.ts line 217). -/
def connectionLostMessage : String :=
  "Connection lost — no response from server for 45 seconds. The matching may still be running on the backend."

/-- One observable occurrence in the read-loop/heartbeat interleaving:
an interval callback, an arriving chunk, the stream ending normally, or
the loop body throwing with the given error message. -/
inductive HBEv where
  | tick (t : Nat)
  | chunk (t : Nat)
  | streamEnd
  | readError (msg : String)
deriving DecidableEq

/-- How a turn's stream phase ended: whether `reader.cancel()` was
called, whether the interval timer was cleared, and the message of the
error thrown past the `finally` (none for a clean end). -/
structure HBOutcome where
  readerCancelled : Bool
  timerCleared : Bool
  thrown : Option String
deriving DecidableEq

/-- Run the read loop with the heartbeat checker over a trace, carrying
`lastEventTime`.  `none` means the trace ends with the loop still blocked
on a read (no exit path was taken yet). -/
def runHeartbeat (last : Nat) : List HBEv → Option HBOutcome
  | [] => none
  | .tick t :: rest =>
    if heartbeatTimeoutMs < t - last then
      some { readerCancelled := true, timerCleared := true,
             thrown := some connectionLostMessage }
    else runHeartbeat last rest
  | .chunk t :: rest => runHeartbeat t rest
  | .streamEnd :: _ =>
    some { readerCancelled := false, timerCleared := true, thrown := none }
  | .readError msg :: _ =>
    -- the exception exits the try block: `finally` clears the interval,
    -- then the error (with its own message) propagates to the catch
    some { readerCancelled := false, timerCleared := true, thrown := some msg }

/-- A silent-death trace: after the last data at time `last`, the interval
fires every `heartbeatCheckMs` with no chunk and no stream end. -/
def silentTicks (last n : Nat) : List HBEv :=
  (List.range n).map (fun i => HBEv.tick (last + heartbeatCheckMs * (i + 1)))

/-! ## Bounded chat history (src/unnamed/part_006 lines 183-203)

In FastAPI mode, a non-matching turn appends the user and assistant
entries to `session.chatHistory` and truncates it to the most recent 20
entries. -/

/-- The chat-history update of the non-matching FastAPI branch
(src/unnamed/part_006 lines 196-202): push user and assistant entries,
then `slice(-20)` when the length exceeds 20. -/
def pushChatHistory (h : List (Role × String)) (userMsg assistantMsg : String) :
    List (Role × String) :=
  let h2 := h ++ [(Role.user, userMsg), (Role.assistant, assistantMsg)]
  if 20 < h2.length then h2.drop (h2.length - 20) else h2

/-- The chat histories reachable in a session: it starts empty
(src/unnamed/part_006 line 42) and is only ever modified by
`pushChatHistory`. -/
inductive ReachableHistory : List (Role × String) → Prop where
  | init : ReachableHistory []
  | step {h : List (Role × String)} (u a : String) :
      ReachableHistory h → ReachableHistory (pushChatHistory h u a)

/-- A concrete sample profile used as a witness input. -/
def sampleCurProfile : PatientProfile :=
  { age := some 60, biomarkers := [("EGFR", "positive")],
    priorTreatments := ["chemo"] }

/-- A concrete sample delta used as a witness input. -/
def sampleDelta : PatientDelta :=
  { age := some 44, priorTreatments := some ["chemo", "immuno"] }

/-! ## FastAPI event normalization (src/unnamed/part_006, `handleFastAPIMode`)

The chat API route consumes `FastAPIEvent`s from the backend stream and
re-emits canonical `data:` frames for the client, folding the remote
vocabulary onto the four pipeline step names.  The `JSON.stringify`
transport of each enqueued frame is modelled structurally: one `OutFrame`
per `controller.enqueue` of a `data:` payload. -/

/-- `summary` payload of a final FastAPI event
(src/lib/fastapi-client.ts lines 86-93). -/
structure FSummary where
  total_candidates : Nat
  total_matched : Nat
  total_ranked : Nat
  requires_review : Bool
  processing_time_ms : Nat
  cost_usd : Rat
deriving DecidableEq

/-- One entry of `criteria_details`
(src/lib/fastapi-client.ts lines 118-126). -/
structure FCriterion where
  criterion_id : String
  criterion_text : String
  criterion_type : String
  status : String
  confidence : Rat
  evidence : List String
  reasoning : String
deriving DecidableEq

/-- One entry of `locations` (src/lib/fastapi-client.ts lines 127-132). -/
structure FLocation where
  facility : String
  city : String
  state : Option String
  country : String
deriving DecidableEq

/-- A backend `TrialMatch` (src/lib/fastapi-client.ts lines 104-133);
`criteria_summary` is flattened into its three counters, and `locations`
is optional because the route reads it with `match.locations?.`. -/
structure FTrialMatch where
  trial_id : String
  nct_id : String
  title : String
  phase : String
  status : String
  therapeutic_area : String
  overall_score : Rat
  recommendation : String
  criteria_meets : Nat
  criteria_fails : Nat
  criteria_insufficient : Nat
  criteria_details : List FCriterion
  locations : Option (List FLocation)
deriving DecidableEq

/-- `result` payload of a final FastAPI event
(src/lib/fastapi-client.ts lines 94-100). -/
structure FResult where
  -- the TS field is named `matches`, a reserved word in Lean
  matchesList : List FTrialMatch
  clinical_narrative : Option String
  top_recommendations : Option (List String)
  overall_confidence : Option Rat
  requires_human_review : Option Bool
deriving DecidableEq

/-- A FastAPI stream event (src/lib/fastapi-client.ts lines 58-102),
restricted to the fields the route reads; the never-read fields
(`progress`, `keywords`, `inclusion_met`, `exclusion_clear`, `success`,
`trials_in_chunk`, `elapsed_ms`, `timestamp`) are omitted. -/
structure FastAPIEvent where
  type : String
  phase : Option String := none
  message : Option String := none
  mode : Option String := none
  cost_usd : Option Rat := none
  candidates : Option Nat := none
  total_trials : Option Nat := none
  chunk_index : Option Nat := none
  total_chunks : Option Nat := none
  trials_processed : Option Nat := none
  passed_count : Option Nat := none
  failed_count : Option Nat := none
  nct_id : Option String := none
  title : Option String := none
  index : Option Nat := none
  total : Option Nat := none
  status : Option String := none
  confidence : Option Rat := none
  summary : Option FSummary := none
  result : Option FResult := none
  error : Option String := none
deriving DecidableEq

/-- One canonical `data:` frame enqueued by the route for the client;
constructors mirror the `type` tags and the fields serialized in each
`JSON.stringify` call of `handleFastAPIMode`. -/
inductive OutFrame where
  | step_start (step : String) (message : Option String)
  | step_complete (step : String) (cost : Option Rat) (candidates : Option Nat)
      (detail : Option String)
  | step_progress (step : String) (detail : String)
  | trial_progress (nctId title : Option String) (index total : Option Nat)
      (status : Option String) (confidence : Option Rat)
  | response (content : String) (patientData : PatientProfile)
      (trials : List TrialMatchR) (totalCost : Rat) (summary : Option FSummary)
  | error (message : String)
  | done
deriving DecidableEq

/-- JS `x || '?'` on an optional count (0 is falsy). -/
def natTruthyOrQ (o : Option Nat) : String :=
  match o with
  | some n => if n = 0 then "?" else toString n
  | none => "?"

/-- JS `x ?? '?'` on an optional count (0 is kept). -/
def natNullishOrQ (o : Option Nat) : String :=
  match o with
  | some n => toString n
  | none => "?"

/-- JS `x || d` on an optional string (absent or empty falls back). -/
def strOr (o : Option String) (d : String) : String :=
  match o with
  | some s => if s = "" then d else s
  | none => d

/-- JS `if (event.cost_usd) totalCost += event.cost_usd` (absent or zero
adds nothing). -/
def addCost (tc : Rat) (o : Option Rat) : Rat :=
  match o with
  | some c => if c = 0 then tc else tc + c
  | none => tc

/-- The route's conversion of one backend match to a frontend trial
record (src/unnamed/part_006 lines 394-411): empty sponsor, up to three
met-criterion reasonings, up to two failed/insufficient reasonings, and
"city, country" location strings. -/
def toTrialResult (m : FTrialMatch) : TrialMatchR :=
  { nctId := m.nct_id
    title := m.title
    phase := m.phase
    status := m.status
    sponsor := ""
    locations := (m.locations.getD []).map (fun l => l.city ++ ", " ++ l.country)
    matchScore := m.overall_score
    matchReasons :=
      ((m.criteria_details.filter (fun c => c.status = "MEETS_CRITERION")).take 3).map
        (fun c => c.reasoning)
    concerns :=
      ((m.criteria_details.filter (fun c =>
          c.status = "FAILS_CRITERION" ∨ c.status = "INSUFFICIENT_INFO")).take 2).map
        (fun c => c.reasoning) }

/-- The mutable locals of the route's stream loop
(src/unnamed/part_006 lines 249-251). -/
structure FAState where
  matchingMode : String := ""
  totalCost : Rat := 0
  trials : List TrialMatchR := []
deriving DecidableEq

/-- One iteration of the route's `switch (event.type)`
(src/unnamed/part_006 lines 258-454): the updated locals and the frames
enqueued for this event, in order.  `profile` is the session profile the
final response echoes back. -/
def stepFA (profile : PatientProfile) (st : FAState) (e : FastAPIEvent) :
    FAState × List OutFrame :=
  if e.type = "phase_start" then
    let phase := e.phase.getD ""
    if phase = "retrieval" then
      (st, [.step_start "Retrieve Trials" e.message])
    else if phase = "matching" then
      let mm := e.mode.getD ""
      ({ st with matchingMode := mm },
       .step_start "Pre-filter" e.message ::
         (if mm ≠ "super_batch" then
           [.step_complete "Pre-filter" none none none,
            .step_start "Assess Eligibility" (some "Sequential matching")]
          else []))
    else if phase = "ranking" then
      (st, [.step_start "Rank & Report" e.message])
    else (st, [])
  else if e.type = "phase_complete" then
    let st' := { st with totalCost := addCost st.totalCost e.cost_usd }
    let phase := e.phase.getD ""
    if phase = "retrieval" then
      (st', [.step_complete "Retrieve Trials" e.cost_usd e.candidates none])
    else if phase = "matching" then
      (st', [.step_complete "Assess Eligibility" e.cost_usd none none])
    else if phase = "ranking" then
      (st', [.step_complete "Rank & Report" e.cost_usd none none])
    else (st', [])
  else if e.type = "super_batch_start" then
    (st, [.step_progress "Pre-filter"
      ("Super-batch: " ++ natTruthyOrQ e.total_trials ++ " trials")])
  else if e.type = "prefilter_start" then
    (st, [.step_progress "Pre-filter"
      ("Pre-filtering " ++ natTruthyOrQ e.total_trials ++ " trials...")])
  else if e.type = "prefilter_complete" then
    (st, [.step_complete "Pre-filter" none none
      (some (toString (e.passed_count.getD 0) ++ " passed / " ++
        toString (e.failed_count.getD 0) ++ " failed")),
      .step_start "Assess Eligibility" (some "Assessing eligibility criteria")])
  else if e.type = "exclusion_chunk_start" ∨ e.type = "exclusion_chunk_complete" then
    (st, [.step_progress "Assess Eligibility"
      ("Exclusion: chunk " ++ natNullishOrQ e.chunk_index ++ "/" ++
        natNullishOrQ e.total_chunks)])
  else if e.type = "inclusion_chunk_start" ∨ e.type = "inclusion_chunk_complete" then
    (st, [.step_progress "Assess Eligibility"
      ("Inclusion: chunk " ++ natNullishOrQ e.chunk_index ++ "/" ++
        natNullishOrQ e.total_chunks)])
  else if e.type = "exclusion_phase_complete" ∨ e.type = "inclusion_phase_complete" then
    (st, [.step_progress "Assess Eligibility" (strOr e.message "Phase complete")])
  else if e.type = "batch_complete" then
    ({ st with totalCost := addCost st.totalCost e.cost_usd },
     [.step_progress "Assess Eligibility"
       ("Batch done: " ++ natTruthyOrQ e.trials_processed ++ " trials processed")])
  else if e.type = "super_batch_fallback" then
    (st, [.step_progress "Assess Eligibility" "Falling back to sequential mode..."])
  else if e.type = "trial_matched" then
    ({ st with totalCost := addCost st.totalCost e.cost_usd },
     [.trial_progress e.nct_id e.title e.index e.total e.status e.confidence])
  else if e.type = "complete" then
    let newTrials :=
      match e.result with
      | some r => st.trials ++ r.matchesList.map toTrialResult
      | none => st.trials
    ({ st with trials := newTrials },
     [.response
       (strOr (e.result.bind (fun r => r.clinical_narrative))
         ("Found " ++ toString newTrials.length ++ " matching trials for your patient."))
       profile newTrials
       (match e.summary with
        | some s => if s.cost_usd = 0 then st.totalCost else s.cost_usd
        | none => st.totalCost)
       e.summary])
  else if e.type = "error" then
    (st, [.error (strOr e.message (strOr e.error "Unknown error from backend"))])
  else if e.type = "heartbeat" then
    (st, [.step_progress "Assess Eligibility" "Processing..."])
  else (st, [])

/-- The route's whole stream loop over the backend events. -/
def runFA (profile : PatientProfile) (st : FAState) :
    List FastAPIEvent → FAState × List OutFrame
  | [] => (st, [])
  | e :: rest =>
    let r := stepFA profile st e
    let r2 := runFA profile r.1 rest
    (r2.1, r.2 ++ r2.2)

/-- The normalized outbound stream of `handleFastAPIMode` for a backend
event sequence: the frames of the loop followed by the closing `done`
frame (src/unnamed/part_006 line 457). -/
def handleFastAPIStream (profile : PatientProfile)
    (evs : List FastAPIEvent) : List OutFrame :=
  (runFA profile {} evs).2 ++ [.done]

/-- A concrete sample backend event used as a witness input: the
matching-phase start frame reporting sequential (non-super-batch) mode. -/
def sampleMatchingStart : FastAPIEvent :=
  { type := "phase_start", phase := some "matching", mode := some "sequential" }

/-! ## Max-results extraction (src/unnamed/part_002, lines 313-333)

`extractMaxResultsFromMessage` looks for the leftmost occurrence of the
case-insensitive pattern top/best/first, one or more whitespace
characters, then either a digit run (accepted when its value lies in
1..20) or a number word one..ten.  The character classes of the two
branch points are disjoint from whitespace, so the greedy regex engine
behaves as the deterministic scanner modelled here: try the phrase at
each position from the left, advancing one character on failure. -/

/-- JS `\s` on the ASCII range. -/
def jsIsSpace (c : Char) : Bool :=
  c = ' ' ∨ c = '\t' ∨ c = '\n' ∨ c = '\r' ∨ c = '\x0b' ∨ c = '\x0c'

/-- Match a lowercase literal case-insensitively at the head of the text,
returning the remainder. -/
def matchLit : List Char → List Char → Option (List Char)
  | [], cs => some cs
  | _ :: _, [] => none
  | p :: ps, c :: cs => if c.toLower = p then matchLit ps cs else none

/-- The keyword alternation `(?:top|best|first)` tried at the head; the
three literals start with distinct letters, so at most one can match. -/
def matchKeyword (cs : List Char) : Option (List Char) :=
  match matchLit ("top".toList) cs with
  | some r => some r
  | none =>
    match matchLit ("best".toList) cs with
    | some r => some r
    | none => matchLit ("first".toList) cs

/-- `\s+`: require one whitespace character and consume the maximal run. -/
def matchSpaces1 (cs : List Char) : Option (List Char) :=
  match cs with
  | c :: rest => if jsIsSpace c then some (rest.dropWhile jsIsSpace) else none
  | [] => none

/-- The digit phrase `(?:top|best|first)\s+(\d+)` anchored at the head:
returns the captured (maximal, nonempty) digit run. -/
def tryDigitPhrase (cs : List Char) : Option (List Char) :=
  match matchKeyword cs with
  | none => none
  | some r1 =>
    match matchSpaces1 r1 with
    | none => none
    | some r2 =>
      let ds := r2.takeWhile (fun c => c.isDigit)
      if ds = [] then none else some ds

/-- `message.match(/(?:top|best|first)\s+(\d+)/i)`: the capture of the
leftmost phrase occurrence. -/
def digitScan : List Char → Option (List Char)
  | [] => none
  | c :: rest =>
    match tryDigitPhrase (c :: rest) with
    | some ds => some ds
    | none => digitScan rest

/-- The `wordToNum` table (src/unnamed/part_002 lines 314-317). -/
def wordToNum : List (String × Nat) :=
  [("one", 1), ("two", 2), ("three", 3), ("four", 4), ("five", 5),
   ("six", 6), ("seven", 7), ("eight", 8), ("nine", 9), ("ten", 10)]

/-- The word alternation tried at the head; returns the matched
alternative (which equals the lowercased capture, since the alternatives
are lowercase literals and no two can match at the same position). -/
def matchWordAlt : List (String × Nat) → List Char → Option String
  | [], _ => none
  | (w, _) :: ws, cs =>
    match matchLit w.toList cs with
    | some _ => some w
    | none => matchWordAlt ws cs

/-- The word phrase `(?:top|best|first)\s+(one|...|ten)` anchored at the
head: returns the lowercased captured word. -/
def tryWordPhrase (cs : List Char) : Option String :=
  match matchKeyword cs with
  | none => none
  | some r1 =>
    match matchSpaces1 r1 with
    | none => none
    | some r2 => matchWordAlt wordToNum r2

/-- The leftmost word-phrase occurrence. -/
def wordScan : List Char → Option String
  | [] => none
  | c :: rest =>
    match tryWordPhrase (c :: rest) with
    | some w => some w
    | none => wordScan rest

/-- `parseInt(ds, 10)` on a nonempty digit run. -/
def digitsToNat (ds : List Char) : Nat :=
  ds.foldl (fun acc c => acc * 10 + (c.toNat - Char.toNat '0')) 0

/-- `extractMaxResultsFromMessage` (src/unnamed/part_002 lines 313-333):
the digit phrase wins when its value is in 1..20, otherwise the word
phrase is looked up in the table (with the default as the `??` fallback),
otherwise the default (5) is returned. -/
def extractMaxResultsFromMessage (msg : List Char) (defaultMax : Nat := 5) : Nat :=
  let fromDigits :=
    match digitScan msg with
    | some ds =>
      let n := digitsToNat ds
      if 1 ≤ n ∧ n ≤ 20 then some n else none
    | none => none
  match fromDigits with
  | some n => n
  | none =>
    match wordScan msg with
    | some w => (wordToNum.lookup w).getD defaultMax
    | none => defaultMax

/-- Whether the message contains, at any position, a top/best/first digit
phrase whose value is in 1..20 (positions beyond the length are covered
by the empty suffix, on which no phrase matches). -/
def hasDigitPhraseInRange (msg : List Char) : Bool :=
  (List.range (msg.length + 1)).any (fun i =>
    match tryDigitPhrase (msg.drop i) with
    | some ds => decide (1 ≤ digitsToNat ds ∧ digitsToNat ds ≤ 20)
    | none => false)

/-- Whether the message contains, at any position, a top/best/first
number-word phrase. -/
def hasWordPhrase (msg : List Char) : Bool :=
  (List.range (msg.length + 1)).any (fun i => (tryWordPhrase (msg.drop i)).isSome)

theorem splitNN_frames_nil {s : List Char} (h : (splitNN s).1 = []) :
    (splitNN s).2 = s := by
  induction s using splitNN.induct with
  | case1 => rfl
  | case2 ch => rfl
  | case3 c1 c2 rest hnl ih =>
    simp only [splitNN, if_pos hnl] at h
    exact absurd h (List.cons_ne_nil _ _)
  | case4 c1 c2 rest hnl ih =>
    simp only [splitNN, if_neg hnl, consFrame] at h ⊢
    rcases hr : (splitNN (c2 :: rest)).1 with _ | ⟨f, fs⟩
    · simp only [hr] at h ⊢
      have := ih hr
      simp [this]
    · simp [hr] at h

/-- Splitting a concatenation: the frames of `s ++ c` are the frames of
`s` followed by the frames of the retained buffer of `s` glued to `c`, and
the final buffer is the buffer of that second split.  This is the key
compositionality fact behind chunking-invariance. -/
theorem splitNN_append (s c : List Char) :
    splitNN (s ++ c) =
      ((splitNN s).1 ++ (splitNN ((splitNN s).2 ++ c)).1,
       (splitNN ((splitNN s).2 ++ c)).2) := by
  induction s using splitNN.induct with
  | case1 => simp [splitNN]
  | case2 ch => simp [splitNN]
  | case3 c1 c2 rest hnl ih =>
    simp only [List.cons_append, splitNN, if_pos hnl, List.append_eq, ih]
  | case4 c1 c2 rest hnl ih =>
    have hstep : splitNN (c1 :: c2 :: rest) = consFrame c1 (splitNN (c2 :: rest)) := by
      simp only [splitNN, if_neg hnl]
    have hstep' : splitNN (c1 :: c2 :: (rest ++ c)) =
        consFrame c1 (splitNN (c2 :: (rest ++ c))) := by
      simp only [splitNN, if_neg hnl]
    rcases hr : (splitNN (c2 :: rest)).1 with _ | ⟨f, fs⟩
    · -- no frame in `c2 :: rest`: its buffer is itself
      have hbuf : (splitNN (c2 :: rest)).2 = c2 :: rest := splitNN_frames_nil hr
      simp only [List.cons_append, hstep, hstep', consFrame, hr, hbuf]
      simp
    · simp only [List.cons_append] at ih ⊢
      simp only [hstep, hstep', consFrame, hr, ih]
      simp [hr]

theorem feedChunk_feedChunk (st : List (List Char) × List Char) (c d : List Char) :
    feedChunk (feedChunk st c) d = feedChunk st (c ++ d) := by
  obtain ⟨fs, b⟩ := st
  simp only [feedChunk, ← List.append_assoc, splitNN_append (b ++ c) d]

theorem foldl_feedChunk (chunks : List (List Char)) :
    ∀ (st : List (List Char) × List Char) (c : List Char),
      (chunks.foldl feedChunk (feedChunk st c)) = feedChunk st (c ++ chunks.flatten) := by
  induction chunks with
  | nil => intro st c; simp
  | cons c' chunks' ih =>
    intro st c
    simp only [List.foldl_cons, List.flatten_cons]
    rw [feedChunk_feedChunk st c c', ih (st) (c ++ c'), List.append_assoc]

/-- Claim C3: chunking-invariance of the frame decoder.  Feeding the
chunks of an arbitrary split of a frame-stream text one at a time yields
exactly the frames and buffer of feeding the whole text at once; the
emitted frames glued back with the separator followed by the retained
buffer reproduce the text (so the buffer is precisely the trailing segment
after the last separator, and is never among the yielded frames); and the
retained buffer contains no separator. -/
theorem decoder_chunking_invariance (chunks : List (List Char)) :
    decodeChunks chunks = splitNN chunks.flatten ∧
    joinFrames (splitNN chunks.flatten).1 (splitNN chunks.flatten).2 = chunks.flatten ∧
    hasSep (splitNN chunks.flatten).2 = false := by
  refine ⟨?_, ?_, ?_⟩
  · cases chunks with
    | nil => rfl
    | cons c chunks' =>
      show (chunks'.foldl feedChunk (feedChunk ([], []) c)) = _
      rw [foldl_feedChunk chunks' ([], []) c]
      simp [feedChunk, List.flatten_cons]
  · generalize chunks.flatten = s
    induction s using splitNN.induct with
    | case1 => rfl
    | case2 ch => rfl
    | case3 c1 c2 rest hnl ih =>
      obtain ⟨h1, h2⟩ := hnl
      subst h1; subst h2
      simp only [splitNN, if_pos (⟨rfl, rfl⟩ : ('\n':Char) = '\n' ∧ ('\n':Char) = '\n')]
      simpa [joinFrames] using ih
    | case4 c1 c2 rest hnl ih =>
      simp only [splitNN, if_neg hnl]
      rcases hr : (splitNN (c2 :: rest)).1 with _ | ⟨f, fs⟩
      · have hbuf : (splitNN (c2 :: rest)).2 = c2 :: rest := splitNN_frames_nil hr
        simp [consFrame, hr, hbuf, joinFrames]
      · simp only [consFrame, hr]
        simp only [hr] at ih
        simp [joinFrames] at ih ⊢
        simpa using ih
  · generalize chunks.flatten = s
    induction s using splitNN.induct with
    | case1 => rfl
    | case2 ch => rfl
    | case3 c1 c2 rest hnl ih =>
      simpa only [splitNN, if_pos hnl] using ih
    | case4 c1 c2 rest hnl ih =>
      simp only [splitNN, if_neg hnl]
      rcases hr : (splitNN (c2 :: rest)).1 with _ | ⟨f, fs⟩
      · have hbuf : (splitNN (c2 :: rest)).2 = c2 :: rest := splitNN_frames_nil hr
        simp only [consFrame, hr, hbuf]
        cases rest with
        | nil => simp [hasSep, hnl]
        | cons c3 rest' =>
          simp only [hasSep]
          rw [hbuf] at ih
          simp only [hasSep] at ih
          simp [hnl, ih]
      · simp only [consFrame, hr]
        simpa [hr] using ih

/-! ## Store theorems -/

theorem dropWhile_append_of_all {α : Type} {p : α → Bool} {l1 l2 : List α}
    (h : ∀ x ∈ l1, p x = true) :
    (l1 ++ l2).dropWhile p = l2.dropWhile p := by
  induction l1 with
  | nil => rfl
  | cons x xs ih =>
    simp only [List.cons_append, List.dropWhile_cons, h x (by simp)]
    exact ih (fun y hy => h y (by simp [hy]))

/-- Claim C1, counterexample: an explicit `error` frame received while
every stage is still `pending` (for example before any `step_start`)
leaves all four stages `pending`, so it is not true that after an
`error` terminal event every stage is `complete` or `error`. -/
theorem c1_error_leaves_pending_counterexample :
    ¬ (∀ s ∈ (applyClientEvent "uuid-err" 0 (ClientEvent.error "backend failed")
          (initialChatState "session-0")).pipelineSteps,
        s.status = StepStatus.complete ∨ s.status = StepStatus.error) := by
  decide

/-- Claim C1 (amended): after a final `response` frame no stage remains
`pending` or `running` (every stage is `complete` or `error`); after an
explicit `error` frame, and likewise after a stream-level failure handled
by the catch path, no stage remains `running` (running stages are set to
`error`), but stages still `pending` stay `pending`. -/
theorem c1_terminal_event_statuses (uuid : String) (now : Nat) (st : ChatState) :
    (∀ content pd tr tc, ∀ s ∈ (applyClientEvent uuid now
        (ClientEvent.response content pd tr tc) st).pipelineSteps,
      s.status = StepStatus.complete ∨ s.status = StepStatus.error) ∧
    (∀ msg, ∀ s ∈ (applyClientEvent uuid now (ClientEvent.error msg) st).pipelineSteps,
      s.status ≠ StepStatus.running) ∧
    (∀ msg, ∀ s ∈ (applyStreamFailure uuid now msg st).pipelineSteps,
      s.status ≠ StepStatus.running) := by
  refine ⟨?_, ?_, ?_⟩
  · intro content pd tr tc s hs
    simp only [applyClientEvent, List.mem_map] at hs
    obtain ⟨t, ht, rfl⟩ := hs
    by_cases h : t.status = StepStatus.pending ∨ t.status = StepStatus.running
    · simp [h]
    · rcases hst : t.status with _ | _ | _ | _ <;> simp [hst] at h ⊢
  · intro msg s hs
    simp only [applyClientEvent, List.mem_map] at hs
    obtain ⟨t, ht, rfl⟩ := hs
    by_cases h : t.status = StepStatus.running
    · simp [h]
    · simp [h]
  · intro msg s hs
    simp only [applyStreamFailure, List.mem_map] at hs
    obtain ⟨t, ht, rfl⟩ := hs
    by_cases h : t.status = StepStatus.running
    · simp [h]
    · simp [h]

theorem c1_terminal_event_statuses_witness :
    ({ name := "Retrieve Trials", description := "BM25 + semantic search",
       model := "qwen-flash", status := StepStatus.complete } : PipelineStepR).status
        = StepStatus.complete ∨
    ({ name := "Retrieve Trials", description := "BM25 + semantic search",
       model := "qwen-flash", status := StepStatus.complete } : PipelineStepR).status
        = StepStatus.error :=
  (c1_terminal_event_statuses "u" 1 (initialChatState "s")).1 "done" none none none
    _ (by decide)

/-- Claim C6: with a retained last user input, `retryLastMessage` removes
the trailing assistant error turns and then the trailing user turn that
triggered them, and re-sends exactly the retained input. -/
theorem c6_retry_rolls_back (st : ChatState) (pre : List ChatMessage)
    (umsg : ChatMessage) (errs : List ChatMessage) (m : String)
    (hmsgs : st.messages = pre ++ umsg :: errs)
    (huser : umsg.role = Role.user)
    (herrs : ∀ e ∈ errs, e.role = Role.assistant ∧ strStartsWith e.content "Error:" = true)
    (hlast : st.lastUserMessage = some m) :
    retryLastMessageStep st = ({ st with messages := pre }, some m) := by
  have hstrip : stripRetry st.messages = pre := by
    have hall : ∀ x ∈ errs.reverse, isErrorTurn x = true := by
      intro x hx
      rw [List.mem_reverse] at hx
      obtain ⟨h1, h2⟩ := herrs x hx
      simp [isErrorTurn, h1, h2]
    have hrev : st.messages.reverse = errs.reverse ++ umsg :: pre.reverse := by
      simp [hmsgs]
    have hu : isErrorTurn umsg = false := by
      simp [isErrorTurn, huser]
    simp only [stripRetry, hrev, dropWhile_append_of_all hall, List.dropWhile_cons, hu,
      Bool.false_eq_true, if_false]
    simp [huser]
  simp [retryLastMessageStep, hlast, hstrip]

theorem c6_retry_rolls_back_witness :
    retryLastMessageStep
      { initialChatState "sess" with
          messages :=
            [{ id := "m1", role := Role.user, content := "hi", timestamp := 0 },
             { id := "m2", role := Role.assistant, content := "Error: boom",
               timestamp := 1 }],
          lastUserMessage := some "hi" } =
    ({ initialChatState "sess" with
         messages := ([] : List ChatMessage), lastUserMessage := some "hi" },
     some "hi") :=
  c6_retry_rolls_back _ []
    { id := "m1", role := Role.user, content := "hi", timestamp := 0 }
    [{ id := "m2", role := Role.assistant, content := "Error: boom", timestamp := 1 }]
    "hi" rfl rfl (by decide) rfl

/-- Claim C7, counterexample: while a turn is in flight
(`isLoading = true`, and the retained input is necessarily set during a
turn), `retryLastMessage` is not a no-op — it still re-sends the retained
input, opening a new request. -/
theorem c7_retry_while_busy_counterexample :
    ({ initialChatState "sess" with
        isLoading := true, lastUserMessage := some "hi" } : ChatState).isLoading = true ∧
    (retryLastMessageStep
      { initialChatState "sess" with
          isLoading := true, lastUserMessage := some "hi" }).2 = some "hi" := by
  decide

/-- Claim C7 (amended): `retryLastMessage` is a no-op exactly when there
is no retained last user input — it performs no in-flight check.  When a
retained input exists it always re-sends it; when none exists (in
particular on a second consecutive call after a successful replay cleared
it) it changes nothing and sends nothing, a safe no-op rather than an
error. -/
theorem c7_retry_noop_iff_no_retained (st : ChatState) :
    (st.lastUserMessage = none → retryLastMessageStep st = (st, none)) ∧
    (∀ m, st.lastUserMessage = some m → (retryLastMessageStep st).2 = some m) := by
  constructor
  · intro h
    simp [retryLastMessageStep, h]
  · intro m h
    simp [retryLastMessageStep, h]

theorem c7_retry_noop_iff_no_retained_witness :
    retryLastMessageStep (initialChatState "sess") = (initialChatState "sess", none) :=
  (c7_retry_noop_iff_no_retained (initialChatState "sess")).1 rfl

/-- Claim C8, counterexample: `sendMessage` performs no busy check.
Called while a turn is in flight (`isLoading = true`) it does not fail
with a SessionBusy error before any side effect: it appends the user-turn
log entry anyway. -/
theorem c8_send_while_busy_counterexample :
    ({ initialChatState "sess" with isLoading := true } : ChatState).isLoading = true ∧
    (sendMessageStart "u1" 0 "hello"
        { initialChatState "sess" with isLoading := true }).1.messages.length =
      ({ initialChatState "sess" with isLoading := true } : ChatState).messages.length
        + 1 := by
  decide

/-- Claim C8 (amended): `sendMessage` does not enforce the
one-turn-in-flight constraint.  Called while a turn is in flight it
proceeds unconditionally: it appends the user-turn entry, resets every
stage to `pending`, keeps the loading flag set, retains the input for
retry, and opens the outbound request carrying the session id, message,
mode and accumulated profile.  (Reentrancy is prevented only by the UI,
which disables submission while `isLoading` is set.) -/
theorem c8_send_no_busy_check (uuid : String) (now : Nat) (content : String)
    (st : ChatState) (hbusy : st.isLoading = true) :
    (sendMessageStart uuid now content st).1.messages =
      st.messages ++ [{ id := uuid, role := Role.user, content := content,
                        timestamp := now }] ∧
    (sendMessageStart uuid now content st).1.pipelineSteps = initialPipelineSteps ∧
    (sendMessageStart uuid now content st).1.isLoading = true ∧
    (sendMessageStart uuid now content st).1.lastUserMessage = some content ∧
    (sendMessageStart uuid now content st).2 =
      { sessionId := st.sessionId, message := content, mode := st.mode,
        patientProfile := st.patientProfile } := by
  simp [sendMessageStart]

theorem c8_send_no_busy_check_witness :
    (sendMessageStart "u1" 0 "hello"
        { initialChatState "sess" with isLoading := true }).1.messages =
      ({ initialChatState "sess" with isLoading := true } : ChatState).messages ++
        [{ id := "u1", role := Role.user, content := "hello", timestamp := 0 }] ∧
    (sendMessageStart "u1" 0 "hello"
        { initialChatState "sess" with isLoading := true }).1.pipelineSteps =
      initialPipelineSteps ∧
    (sendMessageStart "u1" 0 "hello"
        { initialChatState "sess" with isLoading := true }).1.isLoading = true ∧
    (sendMessageStart "u1" 0 "hello"
        { initialChatState "sess" with isLoading := true }).1.lastUserMessage =
      some "hello" ∧
    (sendMessageStart "u1" 0 "hello"
        { initialChatState "sess" with isLoading := true }).2 =
      { sessionId := ({ initialChatState "sess" with isLoading := true } : ChatState).sessionId,
        message := "hello",
        mode := ({ initialChatState "sess" with isLoading := true } : ChatState).mode,
        patientProfile :=
          ({ initialChatState "sess" with isLoading := true } : ChatState).patientProfile } :=
  c8_send_no_busy_check "u1" 0 "hello"
    { initialChatState "sess" with isLoading := true } (by decide)

/-! ## Heartbeat and history theorems -/

theorem runHeartbeat_some_append {evs : List HBEv} :
    ∀ {last : Nat} {o : HBOutcome}, runHeartbeat last evs = some o →
      ∀ evs', runHeartbeat last (evs ++ evs') = some o := by
  induction evs with
  | nil => intro last o h evs'; simp [runHeartbeat] at h
  | cons e rest ih =>
    intro last o h evs'
    cases e with
    | tick t =>
      simp only [runHeartbeat, List.cons_append] at h ⊢
      by_cases hc : heartbeatTimeoutMs < t - last
      · simp only [if_pos hc] at h ⊢; exact h
      · simp only [if_neg hc] at h ⊢; exact ih h evs'
    | chunk t =>
      simp only [runHeartbeat, List.cons_append] at h ⊢
      exact ih h evs'
    | streamEnd =>
      simp only [runHeartbeat, List.cons_append] at h ⊢
      exact h
    | readError msg =>
      simp only [runHeartbeat, List.cons_append] at h ⊢
      exact h

theorem runHeartbeat_silent_ten (last : Nat) :
    runHeartbeat last (silentTicks last 10) =
      some { readerCancelled := true, timerCleared := true,
             thrown := some connectionLostMessage } := by
  have h : silentTicks last 10 =
      [HBEv.tick (last + 5000), HBEv.tick (last + 10000), HBEv.tick (last + 15000),
       HBEv.tick (last + 20000), HBEv.tick (last + 25000), HBEv.tick (last + 30000),
       HBEv.tick (last + 35000), HBEv.tick (last + 40000), HBEv.tick (last + 45000),
       HBEv.tick (last + 50000)] := by
    simp [silentTicks, heartbeatCheckMs, List.range_succ]
  rw [h]
  simp [runHeartbeat, heartbeatTimeoutMs, Nat.add_sub_cancel_left]

/-- Claim C5: the heartbeat monitor.  (1) Whenever the stream phase of a
turn reaches an exit path — normal stream end, a read-loop error, or a
heartbeat timeout — the interval timer has been cleared.  (2) If no chunk
arrives after the last data for longer than the 45-second timeout while
the checker fires on its 5-second interval, the reader is cancelled and
the turn ends with the distinguishable connection-lost error, whose
message (3) differs from every generic failure message thrown elsewhere in
`sendMessage`.  (4) In particular, on the error exit path (the loop body
throwing) the timer is cleared by the `finally` clause and the error
propagates with its own message, not the connection-lost one. -/
theorem c5_heartbeat_timeout :
    (∀ (last : Nat) (evs : List HBEv) (o : HBOutcome),
      runHeartbeat last evs = some o → o.timerCleared = true) ∧
    (∀ (last n : Nat), 10 ≤ n →
      runHeartbeat last (silentTicks last n) =
        some { readerCancelled := true, timerCleared := true,
               thrown := some connectionLostMessage }) ∧
    (connectionLostMessage ≠ "Failed" ∧ connectionLostMessage ≠ "No stream" ∧
      connectionLostMessage ≠ "Connection error") ∧
    (∀ (last : Nat) (msg : String) (rest : List HBEv),
      runHeartbeat last (HBEv.readError msg :: rest) =
        some { readerCancelled := false, timerCleared := true,
               thrown := some msg }) := by
  refine ⟨?_, ?_, by decide, fun last msg rest => rfl⟩
  · intro last evs
    induction evs generalizing last with
    | nil => intro o h; simp [runHeartbeat] at h
    | cons e rest ih =>
      intro o h
      cases e with
      | tick t =>
        simp only [runHeartbeat] at h
        by_cases hc : heartbeatTimeoutMs < t - last
        · simp only [if_pos hc, Option.some.injEq] at h
          rw [← h]
        · simp only [if_neg hc] at h
          exact ih last o h
      | chunk t =>
        simp only [runHeartbeat] at h
        exact ih t o h
      | streamEnd =>
        simp only [runHeartbeat, Option.some.injEq] at h
        rw [← h]
      | readError msg =>
        simp only [runHeartbeat, Option.some.injEq] at h
        rw [← h]
  · intro last n hn
    obtain ⟨k, rfl⟩ := Nat.exists_eq_add_of_le hn
    have hsplit : silentTicks last (10 + k) =
        silentTicks last 10 ++
          (List.range k).map (fun i => HBEv.tick (last + heartbeatCheckMs * (10 + i + 1))) := by
      simp only [silentTicks, List.range_add, List.map_append, List.map_map]
      congr 1
    rw [hsplit]
    exact runHeartbeat_some_append (runHeartbeat_silent_ten last) _

theorem c5_heartbeat_timeout_witness :
    runHeartbeat 0 (silentTicks 0 10) =
      some { readerCancelled := true, timerCleared := true,
             thrown := some connectionLostMessage } :=
  c5_heartbeat_timeout.2.1 0 10 (by decide)

/-- Claim C9: in FastAPI mode, the non-matching chat turn's history
update keeps `chatHistory` bounded: starting within the bound it stays
within the bound after appending the user and assistant entries (the list
is truncated to the most recent 20), and consequently every reachable
chat history has at most 20 entries. -/
theorem c9_chat_history_bounded :
    (∀ (h : List (Role × String)) (u a : String),
      h.length ≤ 20 → (pushChatHistory h u a).length ≤ 20) ∧
    (∀ h : List (Role × String), ReachableHistory h → h.length ≤ 20) := by
  have hstep : ∀ (h : List (Role × String)) (u a : String),
      h.length ≤ 20 → (pushChatHistory h u a).length ≤ 20 := by
    intro h u a _
    unfold pushChatHistory
    by_cases hlen : 20 < (h ++ [(Role.user, u), (Role.assistant, a)]).length
    · simp only [if_pos hlen, List.length_drop]
      omega
    · simp only [if_neg hlen]
      omega
  refine ⟨hstep, ?_⟩
  intro h hr
  induction hr with
  | init => simp
  | step u a _ ih => exact hstep _ u a ih

theorem c9_chat_history_bounded_witness :
    (pushChatHistory [] "find trials" "Searching...").length ≤ 20 :=
  c9_chat_history_bounded.2 (pushChatHistory [] "find trials" "Searching...")
    (ReachableHistory.step "find trials" "Searching..." ReachableHistory.init)

/-! ## Profile-merge theorems -/

theorem lookup_append_or {α β : Type} [BEq α] (l1 l2 : List (α × β)) (k : α) :
    (l1 ++ l2).lookup k = (l1.lookup k).or (l2.lookup k) := by
  induction l1 with
  | nil => simp [List.lookup]
  | cons p l1' ih =>
    obtain ⟨a, b⟩ := p
    cases h : k == a with
    | true => simp [List.lookup, h]
    | false => simp [List.lookup, h, ih]

theorem lookup_map_override (cur del : List (String × String)) (k : String) :
    (cur.map (overrideEntry del)).lookup k =
      (cur.lookup k).map (fun v => (del.lookup k).getD v) := by
  induction cur with
  | nil => simp [List.lookup]
  | cons p cur' ih =>
    obtain ⟨a, b⟩ := p
    by_cases h : k = a
    · subst h
      cases hd : del.lookup k with
      | none => simp [overrideEntry, List.lookup, hd]
      | some w => simp [overrideEntry, List.lookup, hd]
    · have hba : (k == a) = false := by simp [h]
      cases hdd : del.lookup a with
      | none => simp [overrideEntry, List.lookup, hdd, hba, ih]
      | some w => simp [overrideEntry, List.lookup, hdd, hba, ih]

theorem lookup_filter_of_not_in (cur del : List (String × String)) (k : String)
    (h : cur.lookup k = none) :
    (del.filter (fun p => (cur.lookup p.1).isNone)).lookup k = del.lookup k := by
  induction del with
  | nil => rfl
  | cons p del' ih =>
    obtain ⟨a, b⟩ := p
    by_cases hk : k = a
    · subst hk
      simp [List.filter_cons, h, List.lookup]
    · have hba : (k == a) = false := by simp [hk]
      cases hp : (cur.lookup a).isNone with
      | true => simp [List.filter_cons, hp, List.lookup, hba, ih]
      | false => simp [List.filter_cons, hp, List.lookup, hba, ih]

theorem jsObjectMerge_lookup (cur del : List (String × String)) (k : String) :
    (jsObjectMerge cur del).lookup k = (del.lookup k).or (cur.lookup k) := by
  unfold jsObjectMerge
  rw [lookup_append_or, lookup_map_override]
  cases hc : cur.lookup k with
  | some v =>
    cases hd : del.lookup k with
    | some w => simp [hd]
    | none => simp [hd]
  | none =>
    rw [lookup_filter_of_not_in cur del k hc]
    cases hd : del.lookup k with
    | some w => simp
    | none => simp

theorem jsSetDedup_append (a b : List String) :
    jsSetDedup (a ++ b) =
      jsSetDedup a ++ (jsSetDedup b).filter (fun y => decide (y ∉ a)) := by
  induction a with
  | nil =>
    rw [List.nil_append, show jsSetDedup ([] : List String) = [] from rfl,
      List.nil_append]
    symm
    apply List.filter_eq_self.mpr
    intro y _
    simp
  | cons x a' ih =>
    show x :: (jsSetDedup (a' ++ b)).filter (fun y => y ≠ x) =
      (x :: (jsSetDedup a').filter (fun y => y ≠ x)) ++
        (jsSetDedup b).filter (fun y => decide (y ∉ x :: a'))
    rw [ih, List.filter_append, List.cons_append]
    congr 1
    rw [List.filter_filter]
    congr 1
    apply List.filter_congr
    intro y _
    by_cases h1 : y = x <;> by_cases h2 : y ∈ a' <;> simp [h1, h2]

theorem jsSetDedup_of_nodup {l : List String} (h : l.Nodup) : jsSetDedup l = l := by
  induction l with
  | nil => rfl
  | cons x xs ih =>
    rw [List.nodup_cons] at h
    obtain ⟨hx, hxs⟩ := h
    show x :: (jsSetDedup xs).filter (fun y => y ≠ x) = x :: xs
    rw [ih hxs]
    congr 1
    apply List.filter_eq_self.mpr
    intro y hy
    simp only [decide_eq_true_eq]
    intro hyx
    exact hx (hyx ▸ hy)

/-- Claim C4: the profile merge keeps every scalar field of the current
profile unless the delta explicitly defines it (in which case the delta's
value wins); the biomarker map is merged key-wise with the delta winning
per key; and the prior-treatment list is the set union by exact string
equality — current entries first (in order), then delta entries not
already present.  The route-side merge is the same merge with `rawText`
explicitly set to the incoming message. -/
theorem c4_profile_merge (cur : PatientProfile) (del : PatientDelta) :
    ((del.age = none → (mergeProfile cur del).age = cur.age) ∧
      (∀ v, del.age = some v → (mergeProfile cur del).age = some v)) ∧
    ((del.sex = none → (mergeProfile cur del).sex = cur.sex) ∧
      (∀ v, del.sex = some v → (mergeProfile cur del).sex = some v)) ∧
    ((del.cancerType = none → (mergeProfile cur del).cancerType = cur.cancerType) ∧
      (∀ v, del.cancerType = some v → (mergeProfile cur del).cancerType = some v)) ∧
    ((del.histology = none → (mergeProfile cur del).histology = cur.histology) ∧
      (∀ v, del.histology = some v → (mergeProfile cur del).histology = some v)) ∧
    ((del.stage = none → (mergeProfile cur del).stage = cur.stage) ∧
      (∀ v, del.stage = some v → (mergeProfile cur del).stage = some v)) ∧
    ((del.pdl1Score = none → (mergeProfile cur del).pdl1Score = cur.pdl1Score) ∧
      (∀ v, del.pdl1Score = some v → (mergeProfile cur del).pdl1Score = some v)) ∧
    ((del.msiStatus = none → (mergeProfile cur del).msiStatus = cur.msiStatus) ∧
      (∀ v, del.msiStatus = some v → (mergeProfile cur del).msiStatus = some v)) ∧
    ((del.ecog = none → (mergeProfile cur del).ecog = cur.ecog) ∧
      (∀ v, del.ecog = some v → (mergeProfile cur del).ecog = some v)) ∧
    ((del.rawText = none → (mergeProfile cur del).rawText = cur.rawText) ∧
      (∀ v, del.rawText = some v → (mergeProfile cur del).rawText = some v)) ∧
    (∀ k, (mergeProfile cur del).biomarkers.lookup k =
      ((del.biomarkers.getD []).lookup k).or (cur.biomarkers.lookup k)) ∧
    (cur.priorTreatments.Nodup →
      (mergeProfile cur del).priorTreatments =
        cur.priorTreatments ++
          (jsSetDedup (del.priorTreatments.getD [])).filter
            (fun t => decide (t ∉ cur.priorTreatments))) ∧
    (∀ msg, mergeProfileRoute cur del msg =
      { mergeProfile cur del with rawText := some msg }) := by
  refine ⟨⟨?_, ?_⟩, ⟨?_, ?_⟩, ⟨?_, ?_⟩, ⟨?_, ?_⟩, ⟨?_, ?_⟩, ⟨?_, ?_⟩, ⟨?_, ?_⟩,
    ⟨?_, ?_⟩, ⟨?_, ?_⟩, ?_, ?_, ?_⟩ <;>
    first
    | (intro h; simp [mergeProfile, jsOrOpt, h]; done)
    | (intro v h; simp [mergeProfile, jsOrOpt, h]; done)
    | (intro k; exact jsObjectMerge_lookup cur.biomarkers (del.biomarkers.getD []) k)
    | (intro h
       rw [show (mergeProfile cur del).priorTreatments =
            jsSetDedup (cur.priorTreatments ++ del.priorTreatments.getD []) from rfl,
          jsSetDedup_append, jsSetDedup_of_nodup h])
    | (intro msg; rfl)

theorem c4_profile_merge_witness :
    (mergeProfile sampleCurProfile sampleDelta).age = some 44 ∧
    (mergeProfile sampleCurProfile sampleDelta).priorTreatments =
      sampleCurProfile.priorTreatments ++
        (jsSetDedup (sampleDelta.priorTreatments.getD [])).filter
          (fun t => decide (t ∉ sampleCurProfile.priorTreatments)) :=
  ⟨(c4_profile_merge sampleCurProfile sampleDelta).1.2 44 rfl,
   (c4_profile_merge sampleCurProfile sampleDelta).2.2.2.2.2.2.2.2.2.2.1 (by decide)⟩

/-! ## FastAPI normalization theorems -/

theorem runFA_frames_append (profile : PatientProfile) (p q : List FastAPIEvent) :
    ∀ st, runFA profile st (p ++ q) =
      ((runFA profile (runFA profile st p).1 q).1,
       (runFA profile st p).2 ++ (runFA profile (runFA profile st p).1 q).2) := by
  induction p with
  | nil => intro st; simp [runFA]
  | cons e p' ih =>
    intro st
    simp only [List.cons_append, runFA, List.append_eq]
    rw [ih]
    simp [List.append_assoc]

/-- Claim C2: for every remote-backend event sequence whose matching-phase
start frame reports a mode other than `super_batch` and that contains no
pre-filter frames, the normalized outbound stream contains a
`step_complete` for the Pre-filter stage strictly before the `step_start`
for the Assess Eligibility stage. -/
theorem c2_sequential_prefilter_order (profile : PatientProfile)
    (evs : List FastAPIEvent) (e : FastAPIEvent) (he : e ∈ evs)
    (htype : e.type = "phase_start") (hphase : e.phase.getD "" = "matching")
    (hmode : e.mode.getD "" ≠ "super_batch")
    (hnopf : ∀ e' ∈ evs, e'.type ≠ "prefilter_start" ∧ e'.type ≠ "prefilter_complete") :
    ∃ i j : Nat, i < j ∧
      (handleFastAPIStream profile evs)[i]? =
        some (OutFrame.step_complete "Pre-filter" none none none) ∧
      (handleFastAPIStream profile evs)[j]? =
        some (OutFrame.step_start "Assess Eligibility" (some "Sequential matching")) := by
  obtain ⟨p, q, rfl⟩ := List.append_of_mem he
  have hstep : ∀ st : FAState, stepFA profile st e =
      ({ st with matchingMode := e.mode.getD "" },
       [OutFrame.step_start "Pre-filter" e.message,
        OutFrame.step_complete "Pre-filter" none none none,
        OutFrame.step_start "Assess Eligibility" (some "Sequential matching")]) := by
    intro st
    simp [stepFA, htype, hphase, hmode]
  have heq : handleFastAPIStream profile (p ++ e :: q) =
      (runFA profile {} p).2 ++
        ([OutFrame.step_start "Pre-filter" e.message,
          OutFrame.step_complete "Pre-filter" none none none,
          OutFrame.step_start "Assess Eligibility" (some "Sequential matching")] ++
          ((runFA profile
              { (runFA profile {} p).1 with matchingMode := e.mode.getD "" } q).2
            ++ [OutFrame.done])) := by
    unfold handleFastAPIStream
    rw [runFA_frames_append]
    simp only [runFA, hstep]
    simp [List.append_assoc]
  refine ⟨(runFA profile {} p).2.length + 1, (runFA profile {} p).2.length + 2,
    by omega, ?_, ?_⟩
  · rw [heq, List.getElem?_append_right (by omega), Nat.add_sub_cancel_left,
      List.getElem?_append_left (by simp)]
    rfl
  · rw [heq, List.getElem?_append_right (by omega), Nat.add_sub_cancel_left,
      List.getElem?_append_left (by simp)]
    rfl

theorem c2_sequential_prefilter_order_witness :
    ∃ i j : Nat, i < j ∧
      (handleFastAPIStream createEmptyPatientProfile [sampleMatchingStart])[i]? =
        some (OutFrame.step_complete "Pre-filter" none none none) ∧
      (handleFastAPIStream createEmptyPatientProfile [sampleMatchingStart])[j]? =
        some (OutFrame.step_start "Assess Eligibility" (some "Sequential matching")) :=
  c2_sequential_prefilter_order createEmptyPatientProfile [sampleMatchingStart]
    sampleMatchingStart (by simp) rfl rfl (by decide) (by decide)

/-! ## Max-results theorems -/

theorem lookup_value_mem {l : List (String × Nat)} {k : String} {v : Nat}
    (h : l.lookup k = some v) : v ∈ l.map Prod.snd := by
  induction l with
  | nil => simp [List.lookup] at h
  | cons p l' ih =>
    obtain ⟨a, b⟩ := p
    rw [List.lookup] at h
    cases hba : k == a with
    | true =>
      rw [hba] at h
      simp only [Option.some.injEq] at h
      simp [← h]
    | false =>
      rw [hba] at h
      simp only [List.map_cons, List.mem_cons]
      exact Or.inr (ih h)

theorem digitScan_exists {msg ds : List Char} (h : digitScan msg = some ds) :
    ∃ i, i ≤ msg.length ∧ tryDigitPhrase (msg.drop i) = some ds := by
  induction msg with
  | nil => simp [digitScan] at h
  | cons c rest ih =>
    rw [digitScan] at h
    cases ht : tryDigitPhrase (c :: rest) with
    | some ds' =>
      rw [ht] at h
      simp only [Option.some.injEq] at h
      exact ⟨0, by simp, by rw [List.drop_zero, ht, h]⟩
    | none =>
      rw [ht] at h
      obtain ⟨i, hi, hp⟩ := ih h
      exact ⟨i + 1, by simp; omega, by simpa using hp⟩

theorem wordScan_exists {msg : List Char} {w : String} (h : wordScan msg = some w) :
    ∃ i, i ≤ msg.length ∧ tryWordPhrase (msg.drop i) = some w := by
  induction msg with
  | nil => simp [wordScan] at h
  | cons c rest ih =>
    rw [wordScan] at h
    cases ht : tryWordPhrase (c :: rest) with
    | some w' =>
      rw [ht] at h
      simp only [Option.some.injEq] at h
      exact ⟨0, by simp, by rw [List.drop_zero, ht, h]⟩
    | none =>
      rw [ht] at h
      obtain ⟨i, hi, hp⟩ := ih h
      exact ⟨i + 1, by simp; omega, by simpa using hp⟩

/-- Claim C10: `extractMaxResultsFromMessage` always returns an integer
between 1 and 20 (so the `max_results` value forwarded to the backend is
always in that range), and it returns the default 5 whenever the message
contains no top/best/first digit phrase with value in 1..20 and no
top/best/first number-word phrase. -/
theorem c10_max_results_extraction (msg : List Char) :
    (1 ≤ extractMaxResultsFromMessage msg ∧ extractMaxResultsFromMessage msg ≤ 20) ∧
    (hasDigitPhraseInRange msg = false → hasWordPhrase msg = false →
      extractMaxResultsFromMessage msg = 5) := by
  have hwordBound : ∀ w v, wordToNum.lookup w = some v → 1 ≤ v ∧ v ≤ 20 := by
    intro w v h
    have hv := lookup_value_mem h
    have hall : ∀ u ∈ wordToNum.map Prod.snd, 1 ≤ u ∧ u ≤ 20 := by decide
    exact hall v hv
  constructor
  · cases hd : digitScan msg with
    | some ds =>
      by_cases hr : 1 ≤ digitsToNat ds ∧ digitsToNat ds ≤ 20
      · simpa [extractMaxResultsFromMessage, hd, hr] using hr
      · cases hw : wordScan msg with
        | none => simp [extractMaxResultsFromMessage, hd, hr, hw]
        | some w =>
          cases hl : wordToNum.lookup w with
          | none => simp [extractMaxResultsFromMessage, hd, hr, hw, hl]
          | some v =>
            simpa [extractMaxResultsFromMessage, hd, hr, hw, hl] using hwordBound w v hl
    | none =>
      cases hw : wordScan msg with
      | none => simp [extractMaxResultsFromMessage, hd, hw]
      | some w =>
        cases hl : wordToNum.lookup w with
        | none => simp [extractMaxResultsFromMessage, hd, hw, hl]
        | some v =>
          simpa [extractMaxResultsFromMessage, hd, hw, hl] using hwordBound w v hl
  · intro h1 h2
    have hw : wordScan msg = none := by
      cases hw : wordScan msg with
      | none => rfl
      | some w =>
        obtain ⟨i, hi, hp⟩ := wordScan_exists hw
        have htrue : hasWordPhrase msg = true := by
          unfold hasWordPhrase
          rw [List.any_eq_true]
          refine ⟨i, ?_, ?_⟩
          · rw [List.mem_range]; omega
          · simp [hp]
        rw [h2] at htrue
        exact Bool.noConfusion htrue
    cases hd : digitScan msg with
    | none => simp [extractMaxResultsFromMessage, hd, hw]
    | some ds =>
      by_cases hr : 1 ≤ digitsToNat ds ∧ digitsToNat ds ≤ 20
      · exfalso
        obtain ⟨i, hi, hp⟩ := digitScan_exists hd
        have htrue : hasDigitPhraseInRange msg = true := by
          unfold hasDigitPhraseInRange
          rw [List.any_eq_true]
          refine ⟨i, ?_, ?_⟩
          · rw [List.mem_range]; omega
          · simp [hp, hr]
        rw [h1] at htrue
        exact Bool.noConfusion htrue
      · simp [extractMaxResultsFromMessage, hd, hr, hw]

theorem c10_max_results_extraction_witness :
    extractMaxResultsFromMessage ("find trials for this patient".toList) = 5 :=
  (c10_max_results_extraction ("find trials for this patient".toList)).2
    (by decide) (by decide)
